import Mathlib

/-!
Shallow embedding of the room/session state machine of the voice-chat relay
(src/backend/app.py).  Python dicts are modelled as insertion-ordered
association lists; the in-place mutation of a room object held inside the
global `rooms` dict is modelled by writing the updated room value back into
the store at the point where the Python handler's mutations are visible.
`datetime.now().isoformat()` is modelled by an explicit `now : String`
parameter to each handler; `request.sid` by an explicit `sid : String`.
Socket.IO `emit` calls are collected in order into a list of `Emission`s.
The transport-level `join_room` and `leave_room` channel-subscription calls
carry no room state and are not modelled.
-/

namespace VoiceChat

/-- Insertion-ordered string-keyed association list, modelling a Python dict. -/
abbrev Dict (α : Type) := List (String × α)

namespace Dict

/-- Python d.get(k) / d[k]: value at the first occurrence of the key. -/
def get? {α : Type} (d : Dict α) (k : String) : Option α :=
  match d with
  | [] => none
  | (k1, v) :: rest => if k1 = k then some v else get? rest k

/-- Python `k in d`. -/
def contains {α : Type} (d : Dict α) (k : String) : Bool :=
  (get? d k).isSome

/-- Python assignment d[k] = v: update in place if present, else append. -/
def set {α : Type} (d : Dict α) (k : String) (v : α) : Dict α :=
  match d with
  | [] => [(k, v)]
  | (k1, v1) :: rest => if k1 = k then (k, v) :: rest else (k1, v1) :: set rest k v

/-- Python `del d[k]` on the first occurrence (all call sites guard on membership). -/
def erase {α : Type} (d : Dict α) (k : String) : Dict α :=
  match d with
  | [] => []
  | (k1, v1) :: rest => if k1 = k then rest else (k1, v1) :: erase rest k

def keys {α : Type} (d : Dict α) : List String := d.map Prod.fst

end Dict

/-- One entry of room["users"]: user_data stored by handle_join_room. -/
structure UserData where
  name : String
  joined_at : String
  socket_id : String
deriving Repr, DecidableEq

/-- A chat-log entry as built by the handlers; socket_id and isSystem are the
optional dict keys that only some message constructors include. -/
structure Msg where
  user : String
  text : String
  timestamp : String
  socket_id : Option String
  isSystem : Option Bool
deriving Repr, DecidableEq

/-- One room of the global `rooms` store, as laid out in get_or_create_room. -/
structure Room where
  users : Dict UserData
  messages : List Msg
  mic_slots : Dict String
  user_slots : Dict Int
  user_ids : Dict String
  created_at : String
  updated_at : String
deriving Repr, DecidableEq

/-- The global store: room_id -> room. -/
abbrev Rooms := Dict Room

/-- Payloads of the socketio emit calls issued by the handlers. -/
inductive Payload where
  | roomData (micSlots : Dict String) (users : List (String × String))
      (roomId : String) (yourName : String)
  | newMessage (msg : Msg)
  | userLeftMic (slot : Int) (userName : String)
  | userJoinedMic (slot : Int) (userName : String) (userId : String)
  | micUpdate (micSlots : Dict String)
  | micError (message : String)
  | userSlotInfo (userId : String) (userName : String) (slot : Int)
deriving Repr, DecidableEq

/-- Audience of an emit call: to=sid, room=room_id, or room with include_self=False. -/
inductive Target where
  | sid (s : String)
  | room (r : String)
  | roomSkipSender (r : String)
deriving Repr, DecidableEq

structure Emission where
  payload : Payload
  target : Target
deriving Repr, DecidableEq

/-- get_or_create_room: idempotent creation with empty members/slots/messages. -/
def get_or_create_room (rooms : Rooms) (room_id : String) (now : String) : Rooms :=
  if Dict.contains rooms room_id then rooms
  else Dict.set rooms room_id ⟨[], [], [], [], [], now, now⟩

/-- update_room_timestamp: refresh updated_at if the room exists. -/
def update_room_timestamp (rooms : Rooms) (room_id : String) (now : String) : Rooms :=
  match Dict.get? rooms room_id with
  | some room => Dict.set rooms room_id { room with updated_at := now }
  | none => rooms

/-- Payload of the join_room event; absent keys are `none`. -/
structure JoinRoomData where
  roomId : Option String
  userName : Option String
deriving Repr, DecidableEq

/-- handle_join_room: add the member, unicast the room_data snapshot to the
joiner, append and broadcast (excluding the joiner) the system join message. -/
def handle_join_room (rooms : Rooms) (sid : String) (data : JoinRoomData) (now : String) :
    Rooms × List Emission :=
  let room_id := data.roomId.getD "None"
  let username := data.userName.getD ("User_" ++ sid.take 6)
  let rooms1 := get_or_create_room rooms room_id now
  match Dict.get? rooms1 room_id with
  | none => (rooms1, [])
  | some room =>
    let user_data : UserData := ⟨username, now, sid⟩
    let room1 : Room := { room with users := Dict.set room.users sid user_data }
    let snapshot : Emission :=
      ⟨Payload.roomData room1.mic_slots
        (room1.users.map (fun p => (p.2.name, p.2.joined_at))) room_id username,
       Target.sid sid⟩
    let msg : Msg := ⟨"System", username ++ " has joined the room", now, none, some true⟩
    let room2 : Room := { room1 with messages := room1.messages ++ [msg] }
    (Dict.set rooms1 room_id room2,
     [snapshot, ⟨Payload.newMessage msg, Target.roomSkipSender room_id⟩])

structure LeaveRoomData where
  roomId : Option String
  userName : Option String
deriving Repr, DecidableEq

/-- handle_leave_room: free any slot held by the member's stored name, remove
the member record, append/broadcast the system left message, refresh the
timestamp, and delete the room when no members remain. -/
def handle_leave_room (rooms : Rooms) (sid : String) (data : LeaveRoomData) (now : String) :
    Rooms × List Emission :=
  let room_id := data.roomId.getD ""
  if room_id = "" ∨ ¬ Dict.contains rooms room_id then (rooms, [])
  else
    match Dict.get? rooms room_id with
    | none => (rooms, [])
    | some room =>
      match Dict.get? room.users sid with
      | none => (rooms, [])
      | some user_data =>
        let username := user_data.name
        let cleanup : Room × List Emission :=
          match Dict.get? room.user_slots username with
          | some slot =>
            let ms := if Dict.contains room.mic_slots (toString slot)
                      then Dict.erase room.mic_slots (toString slot) else room.mic_slots
            let uids := if Dict.contains room.user_ids username
                        then Dict.erase room.user_ids username else room.user_ids
            ({ room with
                 mic_slots := ms,
                 user_slots := Dict.erase room.user_slots username,
                 user_ids := uids },
             [⟨Payload.userLeftMic slot username, Target.room room_id⟩])
          | none => (room, [])
        let room1 := cleanup.1
        let room2 : Room := { room1 with users := Dict.erase room1.users sid }
        let msg : Msg := ⟨"System", username ++ " has left the room", now, none, none⟩
        let room3 : Room := { room2 with messages := room2.messages ++ [msg] }
        let rooms2 := update_room_timestamp (Dict.set rooms room_id room3) room_id now
        let ems := cleanup.2 ++ [⟨Payload.newMessage msg, Target.room room_id⟩]
        if room3.users.isEmpty then (Dict.erase rooms2 room_id, ems)
        else (rooms2, ems)

/-- Cleanup performed by handle_disconnect on the room that holds the
disconnecting sid; returns `none` in place of a room that became empty. -/
def disconnect_cleanup (room_id : String) (room : Room) (sid : String) (now : String) :
    Option Room × List Emission :=
  let username := match Dict.get? room.users sid with
                  | some u => u.name
                  | none => "Unknown"
  let cleanup : Room × List Emission :=
    match Dict.get? room.user_slots username with
    | some slot =>
      let ms := if Dict.contains room.mic_slots (toString slot)
                then Dict.erase room.mic_slots (toString slot) else room.mic_slots
      let uids := if Dict.contains room.user_ids username
                  then Dict.erase room.user_ids username else room.user_ids
      ({ room with
           mic_slots := ms,
           user_slots := Dict.erase room.user_slots username,
           user_ids := uids },
       [⟨Payload.userLeftMic slot username, Target.room room_id⟩])
    | none => (room, [])
  let room1 := cleanup.1
  let room2 : Room := { room1 with users := Dict.erase room1.users sid }
  let msg : Msg := ⟨"System", username ++ " has left the room", now, none, none⟩
  let room3 : Room := { room2 with messages := room2.messages ++ [msg], updated_at := now }
  let ems := cleanup.2 ++ [⟨Payload.newMessage msg, Target.room room_id⟩]
  if room3.users.isEmpty then (none, ems) else (some room3, ems)

/-- The `for room_id, room_data in rooms.items()` loop of handle_disconnect:
clean up the first room containing the sid, then break. -/
def disconnect_go (sid : String) (now : String) :
    List (String × Room) → List (String × Room) × List Emission
  | [] => ([], [])
  | (room_id, room) :: rest =>
    if Dict.contains room.users sid then
      match disconnect_cleanup room_id room sid now with
      | (some room3, ems) => ((room_id, room3) :: rest, ems)
      | (none, ems) => (rest, ems)
    else
      let r := disconnect_go sid now rest
      ((room_id, room) :: r.1, r.2)

def handle_disconnect (rooms : Rooms) (sid : String) (now : String) : Rooms × List Emission :=
  disconnect_go sid now rooms

structure SendMessageData where
  roomId : Option String
  userName : Option String
  text : Option String
deriving Repr, DecidableEq

/-- Python str.strip(): drop leading and trailing whitespace (structural
definition over the character list so that it evaluates by reduction). -/
def pyStrip (s : String) : String :=
  ⟨((s.data.dropWhile Char.isWhitespace).reverse.dropWhile Char.isWhitespace).reverse⟩

/-- handle_send_message: member check, then append and broadcast the message. -/
def handle_send_message (rooms : Rooms) (sid : String) (data : SendMessageData) (now : String) :
    Rooms × List Emission :=
  let room_id := data.roomId.getD "None"
  let username := data.userName.getD "Anonymous"
  let text := pyStrip (data.text.getD "")
  if text = "" ∨ room_id = "" ∨ ¬ Dict.contains rooms room_id then (rooms, [])
  else
    match Dict.get? rooms room_id with
    | none => (rooms, [])
    | some room =>
      if ¬ Dict.contains room.users sid then (rooms, [])
      else
        let msg : Msg := ⟨username, text, now, some sid, none⟩
        let room1 : Room := { room with messages := room.messages ++ [msg] }
        let rooms2 := update_room_timestamp (Dict.set rooms room_id room1) room_id now
        (rooms2, [⟨Payload.newMessage msg, Target.room room_id⟩])

structure JoinMicData where
  roomId : Option String
  slot : Option Int
  userName : Option String
  userId : Option String
deriving Repr, DecidableEq

/-- handle_join_mic: validity and membership checks, removal of the requester's
old slot from mic_slots (the user_slots entry is left in place by the source),
conflict check, then assignment with mic_update / user_joined_mic / chat
notifications.  On the SlotTaken path the handler returns after the old-slot
removal already happened in place, which is modelled by writing the partially
updated room back into the store. -/
def handle_join_mic (rooms : Rooms) (sid : String) (data : JoinMicData) (now : String) :
    Rooms × List Emission :=
  let room_id := data.roomId.getD "None"
  let slot := data.slot.getD 0
  let username0 := data.userName.getD ""
  let user_id := data.userId.getD ""
  if room_id = "" ∨ ¬ Dict.contains rooms room_id ∨ slot < 1 ∨ slot > 10 then
    (rooms, [⟨Payload.micError "Invalid room or slot", Target.sid sid⟩])
  else
    match Dict.get? rooms room_id with
    | none => (rooms, [])
    | some room =>
      match Dict.get? room.users sid with
      | none => (rooms, [⟨Payload.micError "You are not in this room", Target.sid sid⟩])
      | some stored =>
        let username := if username0 = "" then stored.name else username0
        let removal : Dict String × List Emission :=
          match Dict.get? room.user_slots username with
          | some old_slot =>
            (if Dict.contains room.mic_slots (toString old_slot)
             then Dict.erase room.mic_slots (toString old_slot) else room.mic_slots,
             [⟨Payload.userLeftMic old_slot username, Target.room room_id⟩])
          | none => (room.mic_slots, [])
        let micSlots1 := removal.1
        let assign : Rooms × List Emission :=
          let micSlots2 := Dict.set micSlots1 (toString slot) username
          let user_slots2 := Dict.set room.user_slots username slot
          let user_ids2 := if user_id = "" then room.user_ids
                           else Dict.set room.user_ids username user_id
          let uidOut := if user_id = "" then (Dict.get? user_ids2 username).getD "" else user_id
          let msg : Msg := ⟨"System", username ++ " joined mic slot " ++ toString slot,
                            now, none, none⟩
          let room1 : Room := { room with
                                  mic_slots := micSlots2,
                                  user_slots := user_slots2,
                                  user_ids := user_ids2,
                                  messages := room.messages ++ [msg] }
          let rooms2 := update_room_timestamp (Dict.set rooms room_id room1) room_id now
          (rooms2,
           removal.2 ++
             [⟨Payload.micUpdate micSlots2, Target.room room_id⟩,
              ⟨Payload.userJoinedMic slot username uidOut, Target.room room_id⟩,
              ⟨Payload.newMessage msg, Target.room room_id⟩])
        match Dict.get? micSlots1 (toString slot) with
        | some current_user =>
          if current_user = username then assign
          else
            (Dict.set rooms room_id { room with mic_slots := micSlots1 },
             removal.2 ++
               [⟨Payload.micError ("Slot " ++ toString slot ++ " is already taken by "
                   ++ current_user), Target.sid sid⟩])
        | none => assign

structure LeaveMicData where
  roomId : Option String
  slot : Option Int
  userName : Option String
deriving Repr, DecidableEq

/-- handle_leave_mic: frees the requested slot only when it is currently held
by the resolved username; no membership check guards a caller-supplied name. -/
def handle_leave_mic (rooms : Rooms) (sid : String) (data : LeaveMicData) (now : String) :
    Rooms × List Emission :=
  let room_id := data.roomId.getD "None"
  let slot := data.slot.getD 0
  let username0 := data.userName.getD ""
  if room_id = "" ∨ ¬ Dict.contains rooms room_id then (rooms, [])
  else
    match Dict.get? rooms room_id with
    | none => (rooms, [])
    | some room =>
      let username :=
        if username0 = "" then
          match Dict.get? room.users sid with
          | some u => u.name
          | none => ""
        else username0
      if username = "" then (rooms, [])
      else
        match Dict.get? room.mic_slots (toString slot) with
        | some holder =>
          if holder = username then
            let micSlots1 := Dict.erase room.mic_slots (toString slot)
            let user_slots1 := if Dict.contains room.user_slots username
                               then Dict.erase room.user_slots username else room.user_slots
            let msg : Msg := ⟨"System", username ++ " left mic slot " ++ toString slot,
                              now, none, none⟩
            let room1 : Room := { room with
                                    mic_slots := micSlots1,
                                    user_slots := user_slots1,
                                    messages := room.messages ++ [msg] }
            let rooms2 := update_room_timestamp (Dict.set rooms room_id room1) room_id now
            (rooms2,
             [⟨Payload.userLeftMic slot username, Target.room room_id⟩,
              ⟨Payload.newMessage msg, Target.room room_id⟩])
          else (rooms, [])
        | none => (rooms, [])

structure GetUserSlotData where
  roomId : Option String
  userId : Option String
  userName : Option String
deriving Repr, DecidableEq

/-- handle_get_user_slot: read-only lookup of a slot by user id or name,
answered to the sender only (Python truthiness of name and slot mirrored). -/
def handle_get_user_slot (rooms : Rooms) (sid : String) (data : GetUserSlotData) :
    Rooms × List Emission :=
  let room_id := data.roomId.getD "None"
  let user_id := data.userId.getD ""
  let username := data.userName.getD ""
  if room_id = "" ∨ ¬ Dict.contains rooms room_id then (rooms, [])
  else
    match Dict.get? rooms room_id with
    | none => (rooms, [])
    | some room =>
      let target_username : Option String :=
        if user_id ≠ "" then
          (room.user_ids.find? (fun p => p.2 = user_id)).map Prod.fst
        else if username ≠ "" then some username
        else none
      match target_username with
      | none => (rooms, [])
      | some tu =>
        match Dict.get? room.user_slots tu with
        | none => (rooms, [])
        | some ts =>
          if tu ≠ "" ∧ ts ≠ 0 then
            (rooms, [⟨Payload.userSlotInfo user_id tu ts, Target.sid sid⟩])
          else (rooms, [])

/-- Inbound socket events that touch the room store. -/
inductive Event where
  | joinRoom (sid : String) (data : JoinRoomData) (now : String)
  | leaveRoom (sid : String) (data : LeaveRoomData) (now : String)
  | sendMessage (sid : String) (data : SendMessageData) (now : String)
  | joinMic (sid : String) (data : JoinMicData) (now : String)
  | leaveMic (sid : String) (data : LeaveMicData) (now : String)
  | getUserSlot (sid : String) (data : GetUserSlotData)
  | disconnect (sid : String) (now : String)
deriving Repr

def step (rooms : Rooms) : Event → Rooms × List Emission
  | .joinRoom sid d now => handle_join_room rooms sid d now
  | .leaveRoom sid d now => handle_leave_room rooms sid d now
  | .sendMessage sid d now => handle_send_message rooms sid d now
  | .joinMic sid d now => handle_join_mic rooms sid d now
  | .leaveMic sid d now => handle_leave_mic rooms sid d now
  | .getUserSlot sid d => handle_get_user_slot rooms sid d
  | .disconnect sid now => handle_disconnect rooms sid now

def run (rooms : Rooms) : List Event → Rooms
  | [] => rooms
  | e :: es => run (step rooms e).1 es

/-- The slot-number-to-name and name-to-slot-number maps of a room are exact
mutual inverses (mic_slots is keyed by the decimal string of the slot). -/
def slotMapsInverse (room : Room) : Bool :=
  room.user_slots.all
    (fun p => Dict.get? room.mic_slots (toString p.2) = some p.1) &&
  room.mic_slots.all
    (fun p => match Dict.get? room.user_slots p.2 with
              | some sl => toString sl = p.1
              | none => false)

/-! ### Association-list lemmas -/

namespace Dict

variable {α : Type}

theorem keys_cons (k : String) (v : α) (tl : Dict α) :
    keys ((k, v) :: tl) = k :: keys tl := rfl

theorem mem_keys_of_mem {d : Dict α} {p : String × α} (h : p ∈ d) : p.1 ∈ keys d :=
  List.mem_map_of_mem Prod.fst h

theorem keys_mem_of_get? {d : Dict α} {k : String} {v : α} (h : get? d k = some v) :
    k ∈ keys d := by
  induction d with
  | nil => simp [get?] at h
  | cons hd tl ih =>
    obtain ⟨k1, v1⟩ := hd
    rw [keys_cons, List.mem_cons]
    by_cases h1 : k1 = k
    · exact Or.inl h1.symm
    · rw [get?, if_neg h1] at h
      exact Or.inr (ih h)

theorem get?_set_self (d : Dict α) (k : String) (v : α) : get? (set d k v) k = some v := by
  induction d with
  | nil => simp [set, get?]
  | cons hd tl ih =>
    obtain ⟨k1, v1⟩ := hd
    by_cases h : k1 = k
    · simp [set, get?, h]
    · simp [set, get?, h, ih]

theorem get?_set_ne (d : Dict α) (k k1 : String) (v : α) (h : k ≠ k1) :
    get? (set d k v) k1 = get? d k1 := by
  induction d with
  | nil => simp [set, get?, h]
  | cons hd tl ih =>
    obtain ⟨k2, v2⟩ := hd
    by_cases h2 : k2 = k
    · simp [set, get?, h2, h]
    · simp [set, get?, h2, ih]

theorem set_set (d : Dict α) (k : String) (v w : α) : set (set d k v) k w = set d k w := by
  induction d with
  | nil => simp [set]
  | cons hd tl ih =>
    obtain ⟨k1, v1⟩ := hd
    by_cases h : k1 = k
    · simp [set, h]
    · simp [set, h, ih]

theorem erase_set (d : Dict α) (k : String) (v : α) : erase (set d k v) k = erase d k := by
  induction d with
  | nil => simp [set, erase]
  | cons hd tl ih =>
    obtain ⟨k1, v1⟩ := hd
    by_cases h : k1 = k
    · simp [set, erase, h]
    · simp [set, erase, h, ih]

theorem set_ne_nil (d : Dict α) (k : String) (v : α) : set d k v ≠ [] := by
  cases d with
  | nil => simp [set]
  | cons hd tl =>
    obtain ⟨k1, v1⟩ := hd
    by_cases h : k1 = k <;> simp [set, h]

theorem mem_of_get? {d : Dict α} {k : String} {v : α} (h : get? d k = some v) : (k, v) ∈ d := by
  induction d with
  | nil => simp [get?] at h
  | cons hd tl ih =>
    obtain ⟨k1, v1⟩ := hd
    by_cases h1 : k1 = k
    · rw [get?, if_pos h1] at h
      rw [List.mem_cons]
      exact Or.inl (by rw [h1, (Option.some_inj.mp h)])
    · rw [get?, if_neg h1] at h
      exact List.mem_cons_of_mem _ (ih h)

theorem mem_keys_set {d : Dict α} {k a : String} {v : α} (h : a ∈ keys (set d k v)) :
    a = k ∨ a ∈ keys d := by
  induction d with
  | nil =>
    rw [set] at h
    rw [keys_cons, List.mem_cons] at h
    rcases h with h | h
    · exact Or.inl h
    · simp [keys] at h
  | cons hd tl ih =>
    obtain ⟨k1, v1⟩ := hd
    by_cases h1 : k1 = k
    · rw [set, if_pos h1, keys_cons, List.mem_cons] at h
      rw [keys_cons, List.mem_cons]
      rcases h with h | h
      · exact Or.inl h
      · exact Or.inr (Or.inr h)
    · rw [set, if_neg h1, keys_cons, List.mem_cons] at h
      rw [keys_cons, List.mem_cons]
      rcases h with h | h
      · exact Or.inr (Or.inl h)
      · rcases ih h with h2 | h2
        · exact Or.inl h2
        · exact Or.inr (Or.inr h2)

theorem mem_keys_erase {d : Dict α} {k a : String} (h : a ∈ keys (erase d k)) : a ∈ keys d := by
  induction d with
  | nil => simpa [erase] using h
  | cons hd tl ih =>
    obtain ⟨k1, v1⟩ := hd
    rw [keys_cons, List.mem_cons]
    by_cases h1 : k1 = k
    · rw [erase, if_pos h1] at h
      exact Or.inr h
    · rw [erase, if_neg h1, keys_cons, List.mem_cons] at h
      rcases h with h | h
      · exact Or.inl h
      · exact Or.inr (ih h)

theorem keys_nodup_set {d : Dict α} {k : String} {v : α} (h : (keys d).Nodup) :
    (keys (set d k v)).Nodup := by
  induction d with
  | nil => simp [set, keys]
  | cons hd tl ih =>
    obtain ⟨k1, v1⟩ := hd
    rw [keys_cons, List.nodup_cons] at h
    by_cases h1 : k1 = k
    · rw [set, if_pos h1, keys_cons, List.nodup_cons]
      exact ⟨h1 ▸ h.1, h.2⟩
    · rw [set, if_neg h1, keys_cons, List.nodup_cons]
      refine ⟨fun hmem => ?_, ih h.2⟩
      rcases mem_keys_set hmem with h2 | h2
      · exact h1 h2
      · exact h.1 h2

theorem keys_nodup_erase {d : Dict α} {k : String} (h : (keys d).Nodup) :
    (keys (erase d k)).Nodup := by
  induction d with
  | nil => simp [erase, keys]
  | cons hd tl ih =>
    obtain ⟨k1, v1⟩ := hd
    rw [keys_cons, List.nodup_cons] at h
    by_cases h1 : k1 = k
    · rw [erase, if_pos h1]
      exact h.2
    · rw [erase, if_neg h1, keys_cons, List.nodup_cons]
      exact ⟨fun hmem => h.1 (mem_keys_erase hmem), ih h.2⟩

theorem mem_set_nodup {d : Dict α} {k : String} {v : α} {p : String × α}
    (hn : (keys d).Nodup) (hp : p ∈ set d k v) : p = (k, v) ∨ (p ∈ d ∧ p.1 ≠ k) := by
  induction d with
  | nil =>
    rw [set, List.mem_cons] at hp
    rcases hp with hp | hp
    · exact Or.inl hp
    · simp at hp
  | cons hd tl ih =>
    obtain ⟨k1, v1⟩ := hd
    rw [keys_cons, List.nodup_cons] at hn
    by_cases h1 : k1 = k
    · subst h1
      rw [set, if_pos rfl, List.mem_cons] at hp
      rcases hp with hp | hp
      · exact Or.inl hp
      · refine Or.inr ⟨List.mem_cons_of_mem _ hp, fun hk => ?_⟩
        exact hn.1 (hk ▸ mem_keys_of_mem hp)
    · rw [set, if_neg h1, List.mem_cons] at hp
      rcases hp with hp | hp
      · exact Or.inr ⟨by rw [hp]; exact List.mem_cons_self _ _, by rw [hp]; exact h1⟩
      · rcases ih hn.2 hp with h2 | h2
        · exact Or.inl h2
        · exact Or.inr ⟨List.mem_cons_of_mem _ h2.1, h2.2⟩

theorem mem_erase {d : Dict α} {k : String} {p : String × α} (hp : p ∈ erase d k) : p ∈ d := by
  induction d with
  | nil => simp [erase] at hp
  | cons hd tl ih =>
    obtain ⟨k1, v1⟩ := hd
    by_cases h1 : k1 = k
    · rw [erase, if_pos h1] at hp
      exact List.mem_cons_of_mem _ hp
    · rw [erase, if_neg h1, List.mem_cons] at hp
      rcases hp with hp | hp
      · rw [hp]; exact List.mem_cons_self _ _
      · exact List.mem_cons_of_mem _ (ih hp)

theorem get?_erase_self {d : Dict α} {k : String} (hn : (keys d).Nodup) :
    get? (erase d k) k = none := by
  induction d with
  | nil => simp [erase, get?]
  | cons hd tl ih =>
    obtain ⟨k1, v1⟩ := hd
    rw [keys_cons, List.nodup_cons] at hn
    by_cases h1 : k1 = k
    · rw [erase, if_pos h1]
      cases hg : get? tl k with
      | none => rfl
      | some v => exact absurd (h1 ▸ keys_mem_of_get? hg) hn.1
    · rw [erase, if_neg h1, get?, if_neg h1]
      exact ih hn.2

theorem get?_isSome_of_mem_keys {d : Dict α} {k : String} (h : k ∈ keys d) :
    (get? d k).isSome := by
  induction d with
  | nil => simp [keys] at h
  | cons hd tl ih =>
    obtain ⟨k1, v1⟩ := hd
    by_cases h1 : k1 = k
    · simp [get?, h1]
    · rw [keys_cons, List.mem_cons] at h
      rw [get?, if_neg h1]
      rcases h with h | h
      · exact absurd h.symm h1
      · exact ih h

end Dict



/-! ### Store-level helper lemmas -/

theorem update_room_timestamp_set (rooms : Rooms) (rid : String) (room : Room) (now : String) :
    update_room_timestamp (Dict.set rooms rid room) rid now =
      Dict.set rooms rid { room with updated_at := now } := by
  simp only [update_room_timestamp, Dict.get?_set_self]
  rw [Dict.set_set]

theorem get_or_create_room_get? (rooms : Rooms) (rid : String) (now : String) :
    ∃ room, Dict.get? (get_or_create_room rooms rid now) rid = some room := by
  unfold get_or_create_room
  by_cases h : Dict.contains rooms rid
  · rw [if_pos h]
    unfold Dict.contains at h
    exact Option.isSome_iff_exists.mp h
  · rw [if_neg h]
    exact ⟨_, Dict.get?_set_self _ _ _⟩

/-- Invariant of the room store: room ids are unique and every stored room has
at least one member. -/
def Inv (rooms : Rooms) : Prop :=
  (Dict.keys rooms).Nodup ∧ ∀ p ∈ rooms, p.2.users ≠ []

theorem Inv_nil : Inv [] := ⟨List.nodup_nil, by simp⟩

theorem Inv_set {rooms : Rooms} {rid : String} {room : Room} (h : Inv rooms)
    (hroom : room.users ≠ []) : Inv (Dict.set rooms rid room) := by
  refine ⟨Dict.keys_nodup_set h.1, fun p hp => ?_⟩
  rcases Dict.mem_set_nodup h.1 hp with h2 | h2
  · rw [h2]; exact hroom
  · exact h.2 p h2.1

theorem Inv_erase {rooms : Rooms} {rid : String} (h : Inv rooms) :
    Inv (Dict.erase rooms rid) :=
  ⟨Dict.keys_nodup_erase h.1, fun p hp => h.2 p (Dict.mem_erase hp)⟩

theorem users_ne_nil_of_get? {rooms : Rooms} {rid : String} {room : Room}
    (h : Inv rooms) (hg : Dict.get? rooms rid = some room) : room.users ≠ [] :=
  h.2 _ (Dict.mem_of_get? hg)

theorem Inv_join_room (rooms : Rooms) (sid : String) (data : JoinRoomData) (now : String)
    (h : Inv rooms) : Inv (handle_join_room rooms sid data now).1 := by
  have hg := get_or_create_room_get? rooms (data.roomId.getD "None") now
  simp only [handle_join_room]
  split
  · next heq =>
    obtain ⟨room, hr⟩ := hg
    rw [heq] at hr
    exact absurd hr (by simp)
  · next room heq =>
    simp only
    by_cases hc : Dict.contains rooms (data.roomId.getD "None")
    · rw [get_or_create_room, if_pos hc]
      exact Inv_set h (Dict.set_ne_nil _ _ _)
    · rw [get_or_create_room, if_neg hc, Dict.set_set]
      exact Inv_set h (Dict.set_ne_nil _ _ _)

theorem ne_nil_of_isEmpty_ne_true {γ : Type} {l : List γ} (h : ¬ l.isEmpty = true) :
    l ≠ [] := by
  intro hnil
  rw [hnil] at h
  exact h rfl

theorem Inv_leave_branch {rooms : Rooms} {rid : String} {u : Dict UserData} {room3 : Room}
    {now : String} {E : List Emission} (h : Inv rooms) (hru : room3.users = u) :
    Inv ((if u.isEmpty then
            (Dict.erase (update_room_timestamp (Dict.set rooms rid room3) rid now) rid, E)
          else (update_room_timestamp (Dict.set rooms rid room3) rid now, E)).1) := by
  rw [update_room_timestamp_set]
  split
  · rw [Dict.erase_set]
    exact Inv_erase h
  · next hne =>
    refine Inv_set h ?_
    show room3.users ≠ []
    rw [hru]
    exact ne_nil_of_isEmpty_ne_true hne

theorem Inv_leave_room (rooms : Rooms) (sid : String) (data : LeaveRoomData) (now : String)
    (h : Inv rooms) : Inv (handle_leave_room rooms sid data now).1 := by
  simp only [handle_leave_room]
  split
  · exact h
  · split
    · exact h
    · next room heq =>
      split
      · exact h
      · next user_data hu =>
        exact Inv_leave_branch h rfl

theorem Inv_send_message (rooms : Rooms) (sid : String) (data : SendMessageData) (now : String)
    (h : Inv rooms) : Inv (handle_send_message rooms sid data now).1 := by
  simp only [handle_send_message]
  split
  · exact h
  · split
    · exact h
    · next room heq =>
      split
      · exact h
      · simp only [update_room_timestamp_set]
        refine Inv_set h ?_
        show room.users ≠ []
        exact users_ne_nil_of_get? h heq

theorem Inv_join_mic (rooms : Rooms) (sid : String) (data : JoinMicData) (now : String)
    (h : Inv rooms) : Inv (handle_join_mic rooms sid data now).1 := by
  simp only [handle_join_mic]
  split
  · exact h
  · split
    · exact h
    · next room heq =>
      split
      · exact h
      · next stored hu =>
        simp only [update_room_timestamp_set]
        repeat' split
        all_goals
          first
            | exact h
            | (refine Inv_set h ?_
               show room.users ≠ []
               exact users_ne_nil_of_get? h heq)

theorem Inv_leave_mic (rooms : Rooms) (sid : String) (data : LeaveMicData) (now : String)
    (h : Inv rooms) : Inv (handle_leave_mic rooms sid data now).1 := by
  simp only [handle_leave_mic]
  split
  · exact h
  · split
    · exact h
    · next room heq =>
      simp only [update_room_timestamp_set]
      repeat' split
      all_goals
        first
          | exact h
          | (refine Inv_set h ?_
             show room.users ≠ []
             exact users_ne_nil_of_get? h heq)

theorem Inv_get_user_slot (rooms : Rooms) (sid : String) (data : GetUserSlotData)
    (h : Inv rooms) : Inv (handle_get_user_slot rooms sid data).1 := by
  simp only [handle_get_user_slot]
  repeat' split
  all_goals exact h

theorem cleanup_if_users {u : Dict UserData} {r : Room} {E : List Emission} {room3 : Room}
    {ems : List Emission}
    (h : (if u.isEmpty then ((none : Option Room), E) else (some r, E)) = (some room3, ems))
    (hru : r.users = u) : room3.users ≠ [] := by
  split at h
  · exact absurd h (by simp)
  · next hne =>
    simp only [Prod.mk.injEq, Option.some.injEq] at h
    rw [h.1.symm, hru]
    exact ne_nil_of_isEmpty_ne_true hne

theorem disconnect_cleanup_users {room_id : String} {room : Room} {sid now : String}
    {room3 : Room} {ems : List Emission}
    (h : disconnect_cleanup room_id room sid now = (some room3, ems)) :
    room3.users ≠ [] := by
  unfold disconnect_cleanup at h
  exact cleanup_if_users h rfl

theorem disconnect_go_keys_sub (sid now : String) :
    ∀ l : List (String × Room), Dict.keys (disconnect_go sid now l).1 ⊆ Dict.keys l := by
  intro l
  induction l with
  | nil => simp [disconnect_go]
  | cons hd tl ih =>
    obtain ⟨rid, room⟩ := hd
    simp only [disconnect_go]
    split
    · split
      · next room3 ems heq =>
        exact List.Subset.refl _
      · next ems heq =>
        exact fun a ha => List.mem_cons_of_mem _ ha
    · intro a ha
      rw [Dict.keys_cons, List.mem_cons] at ha ⊢
      rcases ha with ha | ha
      · exact Or.inl ha
      · exact Or.inr (ih ha)

theorem Inv_disconnect_go (sid now : String) :
    ∀ l : List (String × Room), Inv l → Inv (disconnect_go sid now l).1 := by
  intro l
  induction l with
  | nil => intro h; exact h
  | cons hd tl ih =>
    intro h
    obtain ⟨rid, room⟩ := hd
    have hnodup := h.1
    rw [Dict.keys_cons, List.nodup_cons] at hnodup
    have hInvTl : Inv tl := ⟨hnodup.2, fun p hp => h.2 p (List.mem_cons_of_mem _ hp)⟩
    simp only [disconnect_go]
    split
    · split
      · next room3 ems heq =>
        refine ⟨?_, fun p hp => ?_⟩
        · rw [Dict.keys_cons, List.nodup_cons]
          exact ⟨hnodup.1, hnodup.2⟩
        · rw [List.mem_cons] at hp
          rcases hp with hp | hp
          · rw [hp]
            exact disconnect_cleanup_users heq
          · exact hInvTl.2 p hp
      · next ems heq => exact hInvTl
    · refine ⟨?_, fun p hp => ?_⟩
      · rw [Dict.keys_cons, List.nodup_cons]
        exact ⟨fun hmem => hnodup.1 (disconnect_go_keys_sub sid now tl hmem),
               (ih hInvTl).1⟩
      · rw [List.mem_cons] at hp
        rcases hp with hp | hp
        · rw [hp]
          exact h.2 (rid, room) (List.mem_cons_self _ _)
        · exact (ih hInvTl).2 p hp

theorem Inv_disconnect (rooms : Rooms) (sid : String) (now : String) (h : Inv rooms) :
    Inv (handle_disconnect rooms sid now).1 :=
  Inv_disconnect_go sid now rooms h

theorem Inv_step (rooms : Rooms) (ev : Event) (h : Inv rooms) : Inv (step rooms ev).1 := by
  cases ev with
  | joinRoom sid d now => exact Inv_join_room rooms sid d now h
  | leaveRoom sid d now => exact Inv_leave_room rooms sid d now h
  | sendMessage sid d now => exact Inv_send_message rooms sid d now h
  | joinMic sid d now => exact Inv_join_mic rooms sid d now h
  | leaveMic sid d now => exact Inv_leave_mic rooms sid d now h
  | getUserSlot sid d => exact Inv_get_user_slot rooms sid d h
  | disconnect sid now => exact Inv_disconnect rooms sid now h

theorem Inv_run (rooms : Rooms) (evs : List Event) (h : Inv rooms) : Inv (run rooms evs) := by
  induction evs generalizing rooms with
  | nil => exact h
  | cons e es ih => exact ih _ (Inv_step rooms e h)

/-! ### Claim C4 -/

/-- C4: after every event is processed (any event sequence from the empty
store), a room id is present in the store only with at least one member;
a join_room for an absent room id creates a fresh room whose message history
holds nothing but the new join message; and a leave_room by the sole member
deletes the room id from the store. -/
theorem C4_room_store_iff_members :
    (∀ evs : List Event, ∀ rid room, Dict.get? (run [] evs) rid = some room →
      room.users ≠ []) ∧
    (∀ (rooms : Rooms) (sid : String) (d : JoinRoomData) (now : String),
      Dict.contains rooms (d.roomId.getD "None") = false →
      Dict.get? (handle_join_room rooms sid d now).1 (d.roomId.getD "None") =
        some ⟨[(sid, ⟨d.userName.getD ("User_" ++ sid.take 6), now, sid⟩)],
              [⟨"System", d.userName.getD ("User_" ++ sid.take 6) ++ " has joined the room",
                now, none, some true⟩],
              [], [], [], now, now⟩) ∧
    (∀ (rooms : Rooms) (sid r : String) (room : Room) (u : UserData) (now : String),
      (Dict.keys rooms).Nodup →
      Dict.get? rooms r = some room →
      room.users = [(sid, u)] →
      r ≠ "" →
      Dict.get? (handle_leave_room rooms sid ⟨some r, none⟩ now).1 r = none) := by
  refine ⟨?_, ?_, ?_⟩
  · intro evs rid room hg
    exact (Inv_run [] evs Inv_nil).2 _ (Dict.mem_of_get? hg)
  · intro rooms sid d now hc
    simp only [handle_join_room, get_or_create_room, hc, Bool.false_eq_true, if_false,
      Dict.get?_set_self]
    rfl
  · intro rooms sid r room u now hnod hr hu hrne
    have hcontains : Dict.contains rooms r = true := by
      unfold Dict.contains
      rw [hr]
      rfl
    have husers : Dict.get? room.users sid = some u := by
      rw [hu]
      simp [Dict.get?]
    simp only [handle_leave_room, Option.getD_some]
    rw [if_neg (by simp [hrne, hcontains])]
    simp only [hr, husers]
    rcases hslot : Dict.get? room.user_slots u.name with _ | slot
    all_goals
      simp only [hslot, hu, Dict.erase, if_pos rfl, List.isEmpty_nil, if_true,
        update_room_timestamp_set, Dict.erase_set]
    all_goals
      exact Dict.get?_erase_self hnod

/-- Witness for C4: the three parts applied at concrete inputs. -/
theorem C4_room_store_iff_members_witness :
    (⟨[("s1", ⟨"alice", "t1", "s1"⟩)],
      [⟨"System", "alice has joined the room", "t1", none, some true⟩],
      [], [], [], "t1", "t1"⟩ : Room).users ≠ [] ∧
    Dict.get? (handle_join_room [] "s1" ⟨some "R1", some "alice"⟩ "t1").1 "R1" =
      some ⟨[("s1", ⟨"alice", "t1", "s1"⟩)],
            [⟨"System", "alice has joined the room", "t1", none, some true⟩],
            [], [], [], "t1", "t1"⟩ ∧
    Dict.get? (handle_leave_room
        [("R1", ⟨[("s1", ⟨"alice", "t1", "s1"⟩)], [], [], [], [], "t1", "t1"⟩)]
        "s1" ⟨some "R1", none⟩ "t2").1 "R1" = none := by
  refine ⟨?_, ?_, ?_⟩
  · exact C4_room_store_iff_members.1
      [Event.joinRoom "s1" ⟨some "R1", some "alice"⟩ "t1"] "R1" _ (by decide)
  · exact C4_room_store_iff_members.2.1 [] "s1" ⟨some "R1", some "alice"⟩ "t1" (by decide)
  · exact C4_room_store_iff_members.2.2
      [("R1", ⟨[("s1", ⟨"alice", "t1", "s1"⟩)], [], [], [], [], "t1", "t1"⟩)]
      "s1" "R1" ⟨[("s1", ⟨"alice", "t1", "s1"⟩)], [], [], [], [], "t1", "t1"⟩
      ⟨"alice", "t1", "s1"⟩ "t2" (by decide) (by decide) (by decide) (by decide)

/-! ### Claim C6 -/

theorem Dict.get?_erase_ne {α : Type} (d : Dict α) (k k1 : String) (h : k ≠ k1) :
    Dict.get? (Dict.erase d k) k1 = Dict.get? d k1 := by
  induction d with
  | nil => rfl
  | cons hd tl ih =>
    obtain ⟨k2, v2⟩ := hd
    by_cases h2 : k2 = k
    · rw [Dict.erase, if_pos h2, Dict.get?, if_neg (h2 ▸ h)]
    · rw [Dict.erase, if_neg h2, Dict.get?, Dict.get?]
      by_cases h3 : k2 = k1
      · rw [if_pos h3, if_pos h3]
      · rw [if_neg h3, if_neg h3, ih]

/-! ### Claim C3 -/

/-- C3: a member whose name currently holds slot A, issuing a successful
join_mic for a free slot B with a different key, ends with slot A vacant and
slot B held by that name, and the full emission sequence places the
user_left_mic notification for A strictly before the user_joined_mic
notification for B within the same call. -/
theorem C3_switch_slot (rooms : Rooms) (sid r n : String) (room : Room) (A B : Int)
    (now : String)
    (hnodup : (Dict.keys room.mic_slots).Nodup)
    (hg : Dict.get? rooms r = some room)
    (hmem : (Dict.get? room.users sid).isSome = true)
    (hn : ¬ n = "")
    (hslotA : Dict.get? room.user_slots n = some A)
    (hmicA : Dict.contains room.mic_slots (toString A) = true)
    (hfreeB : Dict.get? room.mic_slots (toString B) = none)
    (hAB : toString A ≠ toString B)
    (hB1 : 1 ≤ B) (hB10 : B ≤ 10)
    (hrne : ¬ r = "") :
    ∃ room1,
      Dict.get? (handle_join_mic rooms sid ⟨some r, some B, some n, none⟩ now).1 r =
        some room1 ∧
      Dict.get? room1.mic_slots (toString A) = none ∧
      Dict.get? room1.mic_slots (toString B) = some n ∧
      (handle_join_mic rooms sid ⟨some r, some B, some n, none⟩ now).2 =
        [⟨Payload.userLeftMic A n, Target.room r⟩,
         ⟨Payload.micUpdate (Dict.set (Dict.erase room.mic_slots (toString A)) (toString B) n),
          Target.room r⟩,
         ⟨Payload.userJoinedMic B n ((Dict.get? room.user_ids n).getD ""), Target.room r⟩,
         ⟨Payload.newMessage ⟨"System", n ++ " joined mic slot " ++ toString B, now, none, none⟩,
          Target.room r⟩] := by
  have hcontains : Dict.contains rooms r = true := by
    unfold Dict.contains
    rw [hg]
    rfl
  obtain ⟨stored, hstored⟩ := Option.isSome_iff_exists.mp hmem
  have hfree1 : Dict.get? (Dict.erase room.mic_slots (toString A)) (toString B) = none := by
    rw [Dict.get?_erase_ne _ _ _ hAB, hfreeB]
  simp only [handle_join_mic, Option.getD_some, Option.getD_none]
  rw [if_neg (by simp [hrne, hcontains]; omega)]
  simp only [hg, hstored]
  rw [if_neg hn]
  simp only [hslotA]
  rw [if_pos hmicA]
  simp only [hfree1, update_room_timestamp_set, Dict.get?_set_self]
  refine ⟨_, rfl, ?_, ?_, ?_⟩
  · show Dict.get? (Dict.set (Dict.erase room.mic_slots (toString A)) (toString B) n)
      (toString A) = none
    rw [Dict.get?_set_ne _ _ _ _ (Ne.symm hAB)]
    exact Dict.get?_erase_self hnodup
  · show Dict.get? (Dict.set (Dict.erase room.mic_slots (toString A)) (toString B) n)
      (toString B) = some n
    exact Dict.get?_set_self _ _ _
  · rfl

/-- Witness for C3 at a concrete two-member room where alice holds slot 1 and
switches to the free slot 2. -/
theorem C3_switch_slot_witness :
    ∃ room1,
      Dict.get? (handle_join_mic
          [("R1", ⟨[("s1", ⟨"alice", "t1", "s1"⟩)], [], [("1", "alice")], [("alice", 1)],
            [], "t1", "t1"⟩)]
          "s1" ⟨some "R1", some 2, some "alice", none⟩ "t2").1 "R1" = some room1 ∧
      Dict.get? room1.mic_slots "1" = none ∧
      Dict.get? room1.mic_slots "2" = some "alice" ∧
      (handle_join_mic
          [("R1", ⟨[("s1", ⟨"alice", "t1", "s1"⟩)], [], [("1", "alice")], [("alice", 1)],
            [], "t1", "t1"⟩)]
          "s1" ⟨some "R1", some 2, some "alice", none⟩ "t2").2 =
        [⟨Payload.userLeftMic 1 "alice", Target.room "R1"⟩,
         ⟨Payload.micUpdate [("2", "alice")], Target.room "R1"⟩,
         ⟨Payload.userJoinedMic 2 "alice" "", Target.room "R1"⟩,
         ⟨Payload.newMessage ⟨"System", "alice joined mic slot 2", "t2", none, none⟩,
          Target.room "R1"⟩] :=
  C3_switch_slot
    [("R1", ⟨[("s1", ⟨"alice", "t1", "s1"⟩)], [], [("1", "alice")], [("alice", 1)],
      [], "t1", "t1"⟩)]
    "s1" "R1" "alice"
    ⟨[("s1", ⟨"alice", "t1", "s1"⟩)], [], [("1", "alice")], [("alice", 1)], [], "t1", "t1"⟩
    1 2 "t2" (by decide) (by decide) (by decide) (by decide) (by decide) (by decide)
    (by decide) (by decide) (by decide) (by decide) (by decide)

/-! ### Claim C5 -/

/-- C5 (amended): every join_room emits exactly two events — a room_data
snapshot sent to the joining connection only, carrying the slot map, the
member list including the joiner, the room id and the assigned name (but no
message history), followed by the system joined message broadcast to the room
excluding the sender.  Existing members therefore never receive the snapshot. -/
theorem C5_snapshot_only_to_joiner (rooms : Rooms) (sid : String) (data : JoinRoomData)
    (now : String) :
    ∃ room0, Dict.get? (get_or_create_room rooms (data.roomId.getD "None") now)
        (data.roomId.getD "None") = some room0 ∧
      (handle_join_room rooms sid data now).2 =
        [⟨Payload.roomData room0.mic_slots
            ((Dict.set room0.users sid
              ⟨data.userName.getD ("User_" ++ sid.take 6), now, sid⟩).map
                (fun p => (p.2.name, p.2.joined_at)))
            (data.roomId.getD "None") (data.userName.getD ("User_" ++ sid.take 6)),
          Target.sid sid⟩,
         ⟨Payload.newMessage ⟨"System",
            data.userName.getD ("User_" ++ sid.take 6) ++ " has joined the room",
            now, none, some true⟩,
          Target.roomSkipSender (data.roomId.getD "None")⟩] := by
  obtain ⟨room0, h0⟩ := get_or_create_room_get? rooms (data.roomId.getD "None") now
  refine ⟨room0, h0, ?_⟩
  simp only [handle_join_room, h0]

/-- C5 counterexample: the join snapshot is independent of the message
history — two rooms identical except for their stored messages yield exactly
the same emissions on join, so the snapshot cannot contain the last-50
messages (the source deliberately sends none in room_data). -/
theorem C5_snapshot_lacks_messages :
    (handle_join_room
        [("R1", ⟨[("s1", ⟨"alice", "t1", "s1"⟩)],
          [⟨"alice", "hello", "t1", some "s1", none⟩], [], [], [], "t1", "t1"⟩)]
        "s2" ⟨some "R1", some "bob"⟩ "t2").2 =
      (handle_join_room
        [("R1", ⟨[("s1", ⟨"alice", "t1", "s1"⟩)], [], [], [], [], "t1", "t1"⟩)]
        "s2" ⟨some "R1", some "bob"⟩ "t2").2 ∧
    ([⟨"alice", "hello", "t1", some "s1", none⟩] : List Msg) ≠ ([] : List Msg) := by
  decide

/-! ### Claim C7 -/

/-- C7 (amended): a send_message from a non-member of an existing room is
dropped with no mutation and no emission; a join_mic from a non-member (valid
room and slot) is rejected with a mic_error to the sender only and no
mutation; a leave_mic from a non-member that supplies no userName frees
nothing and changes nothing.  (A leave_mic from a non-member that supplies a
userName is not rejected — see the counterexample.) -/
theorem C7_nonmember_rejected (rooms : Rooms) (sid r : String) (room : Room) (now : String)
    (hg : Dict.get? rooms r = some room)
    (hmem : Dict.get? room.users sid = none)
    (hrne : ¬ r = "") :
    (∀ un tx, handle_send_message rooms sid ⟨some r, un, tx⟩ now = (rooms, [])) ∧
    (∀ s un uid, 1 ≤ s → s ≤ 10 →
      handle_join_mic rooms sid ⟨some r, some s, un, uid⟩ now =
        (rooms, [⟨Payload.micError "You are not in this room", Target.sid sid⟩])) ∧
    (∀ s, handle_leave_mic rooms sid ⟨some r, s, none⟩ now = (rooms, [])) := by
  have hcontains : Dict.contains rooms r = true := by
    unfold Dict.contains
    rw [hg]
    rfl
  have hnm : Dict.contains room.users sid = false := by
    unfold Dict.contains
    rw [hmem]
    rfl
  refine ⟨?_, ?_, ?_⟩
  · intro un tx
    simp only [handle_send_message, Option.getD_some]
    by_cases ht : pyStrip (tx.getD "") = ""
    · rw [if_pos (Or.inl ht)]
    · rw [if_neg (by simp [ht, hrne, hcontains])]
      simp only [hg]
      rw [if_pos (by rw [hnm]; simp)]
  · intro s un uid hs1 hs10
    simp only [handle_join_mic, Option.getD_some]
    rw [if_neg (by simp [hrne, hcontains]; omega)]
    simp only [hg, hmem]
  · intro s
    simp only [handle_leave_mic, Option.getD_some, Option.getD_none]
    rw [if_neg (by simp [hrne, hcontains])]
    simp only [hg, hmem]
    simp

/-- Witness for C7 at a concrete room: the intruder connection is not a
member, so its send_message and slot-free leave_mic are no-ops and its
join_mic draws only the unicast mic_error. -/
theorem C7_nonmember_rejected_witness :
    handle_send_message
        [("R1", ⟨[("s1", ⟨"alice", "t1", "s1"⟩)], [], [], [], [], "t1", "t1"⟩)]
        "intruder" ⟨some "R1", some "eve", some "hi"⟩ "t2" =
      ([("R1", ⟨[("s1", ⟨"alice", "t1", "s1"⟩)], [], [], [], [], "t1", "t1"⟩)], []) ∧
    handle_join_mic
        [("R1", ⟨[("s1", ⟨"alice", "t1", "s1"⟩)], [], [], [], [], "t1", "t1"⟩)]
        "intruder" ⟨some "R1", some 3, some "eve", none⟩ "t2" =
      ([("R1", ⟨[("s1", ⟨"alice", "t1", "s1"⟩)], [], [], [], [], "t1", "t1"⟩)],
       [⟨Payload.micError "You are not in this room", Target.sid "intruder"⟩]) ∧
    handle_leave_mic
        [("R1", ⟨[("s1", ⟨"alice", "t1", "s1"⟩)], [], [], [], [], "t1", "t1"⟩)]
        "intruder" ⟨some "R1", some 1, none⟩ "t2" =
      ([("R1", ⟨[("s1", ⟨"alice", "t1", "s1"⟩)], [], [], [], [], "t1", "t1"⟩)], []) := by
  have H := C7_nonmember_rejected
    [("R1", ⟨[("s1", ⟨"alice", "t1", "s1"⟩)], [], [], [], [], "t1", "t1"⟩)]
    "intruder" "R1"
    ⟨[("s1", ⟨"alice", "t1", "s1"⟩)], [], [], [], [], "t1", "t1"⟩ "t2"
    (by decide) (by decide) (by decide)
  exact ⟨H.1 (some "eve") (some "hi"),
         H.2.1 3 (some "eve") none (by decide) (by decide),
         H.2.2 (some 1)⟩

/-- C7 counterexample: leave_mic performs no membership check — a connection
that never joined room R1 supplies userName "alice" and thereby frees the
slot alice holds, with the left-slot notifications broadcast. -/
theorem C7_nonmember_leave_mic_frees :
    Dict.get? (⟨[("s1", ⟨"alice", "t1", "s1"⟩)], [], [("1", "alice")], [("alice", 1)],
        [], "t1", "t1"⟩ : Room).users "intruder" = none ∧
    (Dict.get? (handle_leave_mic
        [("R1", ⟨[("s1", ⟨"alice", "t1", "s1"⟩)], [], [("1", "alice")], [("alice", 1)],
          [], "t1", "t1"⟩)]
        "intruder" ⟨some "R1", some 1, some "alice"⟩ "t2").1 "R1").map Room.mic_slots =
      some [] ∧
    (handle_leave_mic
        [("R1", ⟨[("s1", ⟨"alice", "t1", "s1"⟩)], [], [("1", "alice")], [("alice", 1)],
          [], "t1", "t1"⟩)]
        "intruder" ⟨some "R1", some 1, some "alice"⟩ "t2").2 ≠ [] := by
  decide

/-! ### Claim C8 -/

/-- C8 (amended): for leave_mic with an explicit slot number, the slot is
freed exactly when that slot is currently held by the requesting display
name, with the left-slot notice emitted only in that case; an omitted slot
number defaults to slot 0 (whose key "0" is never assigned by join_mic,
which accepts slots 1..10 only), so an omitted slot frees nothing — it does
not release the requester's held slot. -/
theorem C8_release_semantics (rooms : Rooms) (sid r n : String) (room : Room) (s : Int)
    (now : String)
    (hg : Dict.get? rooms r = some room)
    (hn : ¬ n = "")
    (hrne : ¬ r = "") :
    (Dict.get? room.mic_slots (toString s) = some n →
      ∃ room1, Dict.get? (handle_leave_mic rooms sid ⟨some r, some s, some n⟩ now).1 r =
          some room1 ∧
        room1.mic_slots = Dict.erase room.mic_slots (toString s) ∧
        room1.updated_at = now ∧
        (handle_leave_mic rooms sid ⟨some r, some s, some n⟩ now).2 =
          [⟨Payload.userLeftMic s n, Target.room r⟩,
           ⟨Payload.newMessage ⟨"System", n ++ " left mic slot " ++ toString s,
              now, none, none⟩, Target.room r⟩]) ∧
    (¬ Dict.get? room.mic_slots (toString s) = some n →
      handle_leave_mic rooms sid ⟨some r, some s, some n⟩ now = (rooms, [])) ∧
    (handle_leave_mic rooms sid ⟨some r, none, some n⟩ now =
      handle_leave_mic rooms sid ⟨some r, some 0, some n⟩ now) ∧
    (Dict.get? room.mic_slots "0" = none →
      handle_leave_mic rooms sid ⟨some r, none, some n⟩ now = (rooms, [])) := by
  have hcontains : Dict.contains rooms r = true := by
    unfold Dict.contains
    rw [hg]
    rfl
  refine ⟨?_, ?_, rfl, ?_⟩
  · intro hheld
    simp only [handle_leave_mic, Option.getD_some]
    rw [if_neg (by simp [hrne, hcontains])]
    simp only [hg]
    rw [if_neg hn, if_neg hn]
    simp only [hheld]
    rw [if_pos trivial]
    simp only [update_room_timestamp_set, Dict.get?_set_self]
    refine ⟨_, rfl, ?_, ?_, ?_⟩ <;> simp
  · intro hnheld
    simp only [handle_leave_mic, Option.getD_some]
    rw [if_neg (by simp [hrne, hcontains])]
    simp only [hg]
    rw [if_neg hn, if_neg hn]
    rcases hms : Dict.get? room.mic_slots (toString s) with _ | holder
    · simp only [hms]
    · simp only [hms]
      rw [if_neg (fun hh : holder = n => hnheld (hh ▸ hms))]
  · intro h0
    simp only [handle_leave_mic, Option.getD_some, Option.getD_none]
    rw [if_neg (by simp [hrne, hcontains])]
    simp only [hg]
    rw [if_neg hn, if_neg hn]
    have h0s : Dict.get? room.mic_slots (toString (0 : Int)) = none := h0
    simp only [h0s]

/-- Witness for C8 at a concrete room where alice holds slot 1: leave_mic with
slot 1 frees it and notifies; slot 2 (not held by alice) is a no-op; an
omitted slot behaves as slot 0 and frees nothing. -/
theorem C8_release_semantics_witness :
    (∃ room1, Dict.get? (handle_leave_mic
        [("R1", ⟨[("s1", ⟨"alice", "t1", "s1"⟩)], [], [("1", "alice"), ("2", "bob")],
          [("alice", 1), ("bob", 2)], [], "t1", "t1"⟩)]
        "s1" ⟨some "R1", some 1, some "alice"⟩ "t2").1 "R1" = some room1 ∧
      room1.mic_slots = Dict.erase [("1", "alice"), ("2", "bob")] "1" ∧
      room1.updated_at = "t2" ∧
      (handle_leave_mic
        [("R1", ⟨[("s1", ⟨"alice", "t1", "s1"⟩)], [], [("1", "alice"), ("2", "bob")],
          [("alice", 1), ("bob", 2)], [], "t1", "t1"⟩)]
        "s1" ⟨some "R1", some 1, some "alice"⟩ "t2").2 =
        [⟨Payload.userLeftMic 1 "alice", Target.room "R1"⟩,
         ⟨Payload.newMessage ⟨"System", "alice left mic slot 1", "t2", none, none⟩,
          Target.room "R1"⟩]) ∧
    handle_leave_mic
        [("R1", ⟨[("s1", ⟨"alice", "t1", "s1"⟩)], [], [("1", "alice"), ("2", "bob")],
          [("alice", 1), ("bob", 2)], [], "t1", "t1"⟩)]
        "s1" ⟨some "R1", some 2, some "alice"⟩ "t2" =
      ([("R1", ⟨[("s1", ⟨"alice", "t1", "s1"⟩)], [], [("1", "alice"), ("2", "bob")],
        [("alice", 1), ("bob", 2)], [], "t1", "t1"⟩)], []) ∧
    handle_leave_mic
        [("R1", ⟨[("s1", ⟨"alice", "t1", "s1"⟩)], [], [("1", "alice"), ("2", "bob")],
          [("alice", 1), ("bob", 2)], [], "t1", "t1"⟩)]
        "s1" ⟨some "R1", none, some "alice"⟩ "t2" =
      ([("R1", ⟨[("s1", ⟨"alice", "t1", "s1"⟩)], [], [("1", "alice"), ("2", "bob")],
        [("alice", 1), ("bob", 2)], [], "t1", "t1"⟩)], []) := by
  have H1 := C8_release_semantics
    [("R1", ⟨[("s1", ⟨"alice", "t1", "s1"⟩)], [], [("1", "alice"), ("2", "bob")],
      [("alice", 1), ("bob", 2)], [], "t1", "t1"⟩)]
    "s1" "R1" "alice"
    ⟨[("s1", ⟨"alice", "t1", "s1"⟩)], [], [("1", "alice"), ("2", "bob")],
      [("alice", 1), ("bob", 2)], [], "t1", "t1"⟩
    1 "t2" (by decide) (by decide) (by decide)
  have H2 := C8_release_semantics
    [("R1", ⟨[("s1", ⟨"alice", "t1", "s1"⟩)], [], [("1", "alice"), ("2", "bob")],
      [("alice", 1), ("bob", 2)], [], "t1", "t1"⟩)]
    "s1" "R1" "alice"
    ⟨[("s1", ⟨"alice", "t1", "s1"⟩)], [], [("1", "alice"), ("2", "bob")],
      [("alice", 1), ("bob", 2)], [], "t1", "t1"⟩
    2 "t2" (by decide) (by decide) (by decide)
  exact ⟨H1.1 (by decide), H2.2.1 (by decide), H1.2.2.2 (by decide)⟩

/-- C8 counterexample: alice holds slot 1, but a leave_mic with the slot
number omitted frees nothing — the slot maps are untouched and no
notification is emitted, while the claim says alice's held slot is freed. -/
theorem C8_omitted_slot_frees_nothing :
    Dict.get? (⟨[("s1", ⟨"alice", "t1", "s1"⟩)], [], [("1", "alice")], [("alice", 1)],
        [], "t1", "t1"⟩ : Room).user_slots "alice" = some 1 ∧
    handle_leave_mic
        [("R1", ⟨[("s1", ⟨"alice", "t1", "s1"⟩)], [], [("1", "alice")], [("alice", 1)],
          [], "t1", "t1"⟩)]
        "s1" ⟨some "R1", none, some "alice"⟩ "t2" =
      ([("R1", ⟨[("s1", ⟨"alice", "t1", "s1"⟩)], [], [("1", "alice")], [("alice", 1)],
        [], "t1", "t1"⟩)], []) := by
  decide

/-- C10: for a send_message from a member of an existing room with non-empty
trimmed text, the author of the message that is stored and broadcast is the
userName field of the event payload (the literal "Anonymous" when absent),
whatever display name is stored in the sender's member record. -/
theorem C10_author_from_payload (rooms : Rooms) (sid r : String) (room : Room)
    (un tx : Option String) (now : String)
    (hg : Dict.get? rooms r = some room)
    (hmem : Dict.contains room.users sid = true)
    (ht : ¬ pyStrip (tx.getD "") = "")
    (hrne : ¬ r = "") :
    ∃ room1,
      Dict.get? (handle_send_message rooms sid ⟨some r, un, tx⟩ now).1 r = some room1 ∧
      room1.messages = room.messages ++
        [⟨un.getD "Anonymous", pyStrip (tx.getD ""), now, some sid, none⟩] ∧
      (handle_send_message rooms sid ⟨some r, un, tx⟩ now).2 =
        [⟨Payload.newMessage ⟨un.getD "Anonymous", pyStrip (tx.getD ""), now, some sid, none⟩,
          Target.room r⟩] := by
  have hcontains : Dict.contains rooms r = true := by
    unfold Dict.contains
    rw [hg]
    rfl
  simp only [handle_send_message, Option.getD_some]
  rw [if_neg (by simp [ht, hrne, hcontains])]
  simp only [hg]
  rw [if_neg (by simp [hmem])]
  simp only [update_room_timestamp_set, Dict.get?_set_self]
  refine ⟨_, rfl, ?_, ?_⟩ <;> simp

/-- Witness for C10: the member record of s1 stores the name "alice", yet the
payload userName "bob" becomes the author of the stored and broadcast
message. -/
theorem C10_author_from_payload_witness :
    ∃ room1,
      Dict.get? (handle_send_message
          [("R1", ⟨[("s1", ⟨"alice", "t1", "s1"⟩)], [], [], [], [], "t1", "t1"⟩)]
          "s1" ⟨some "R1", some "bob", some " hi "⟩ "t2").1 "R1" = some room1 ∧
      room1.messages = [⟨"bob", "hi", "t2", some "s1", none⟩] ∧
      (handle_send_message
          [("R1", ⟨[("s1", ⟨"alice", "t1", "s1"⟩)], [], [], [], [], "t1", "t1"⟩)]
          "s1" ⟨some "R1", some "bob", some " hi "⟩ "t2").2 =
        [⟨Payload.newMessage ⟨"bob", "hi", "t2", some "s1", none⟩, Target.room "R1"⟩] := by
  have H := C10_author_from_payload
    [("R1", ⟨[("s1", ⟨"alice", "t1", "s1"⟩)], [], [], [], [], "t1", "t1"⟩)]
    "s1" "R1" ⟨[("s1", ⟨"alice", "t1", "s1"⟩)], [], [], [], [], "t1", "t1"⟩
    (some "bob") (some " hi ") "t2" (by decide) (by decide) (by decide) (by decide)
  exact H

/-! ### Claims C1 and C2 -/

/-- C1 fails on the code: after alice takes slot 1, bob takes slot 2, and
alice requests slot 2 (rejected as taken), the name-to-slot map still records
alice -> 1 while the slot-to-name map no longer has a slot-1 entry — the two
maps are not mutual inverses after the failed join_mic, because the handler
deletes the requester's old mic_slots entry but not the user_slots entry
before returning on the conflict. -/
theorem C1_slot_maps_not_inverse :
    (Dict.get? (run []
        [Event.joinRoom "s1" ⟨some "R1", some "alice"⟩ "t1",
         Event.joinRoom "s2" ⟨some "R1", some "bob"⟩ "t2",
         Event.joinMic "s1" ⟨some "R1", some 1, some "alice", none⟩ "t3",
         Event.joinMic "s2" ⟨some "R1", some 2, some "bob", none⟩ "t4",
         Event.joinMic "s1" ⟨some "R1", some 2, some "alice", none⟩ "t5"]) "R1").map
      (fun room => (slotMapsInverse room, room.user_slots, room.mic_slots)) =
      some (false, [("alice", 1), ("bob", 2)], [("2", "bob")]) := by
  decide

/-- C2 fails on the code: with alice holding slot 1 and bob holding slot 2,
alice's join_mic for slot 2 does emit the SlotTaken mic_error to the sender
only — but it is preceded by a user_left_mic broadcast for alice's slot 1,
and the slot-to-name map has lost its slot-1 entry: the failed request
mutates the slot maps instead of leaving them exactly as they were. -/
theorem C2_mutation_on_slot_taken :
    (step (run []
        [Event.joinRoom "s1" ⟨some "R1", some "alice"⟩ "t1",
         Event.joinRoom "s2" ⟨some "R1", some "bob"⟩ "t2",
         Event.joinMic "s1" ⟨some "R1", some 1, some "alice", none⟩ "t3",
         Event.joinMic "s2" ⟨some "R1", some 2, some "bob", none⟩ "t4"])
      (Event.joinMic "s1" ⟨some "R1", some 2, some "alice", none⟩ "t5")).2 =
      [⟨Payload.userLeftMic 1 "alice", Target.room "R1"⟩,
       ⟨Payload.micError "Slot 2 is already taken by bob", Target.sid "s1"⟩] ∧
    (Dict.get? (run []
        [Event.joinRoom "s1" ⟨some "R1", some "alice"⟩ "t1",
         Event.joinRoom "s2" ⟨some "R1", some "bob"⟩ "t2",
         Event.joinMic "s1" ⟨some "R1", some 1, some "alice", none⟩ "t3",
         Event.joinMic "s2" ⟨some "R1", some 2, some "bob", none⟩ "t4"]) "R1").map
      Room.mic_slots = some [("1", "alice"), ("2", "bob")] ∧
    (Dict.get? (step (run []
        [Event.joinRoom "s1" ⟨some "R1", some "alice"⟩ "t1",
         Event.joinRoom "s2" ⟨some "R1", some "bob"⟩ "t2",
         Event.joinMic "s1" ⟨some "R1", some 1, some "alice", none⟩ "t3",
         Event.joinMic "s2" ⟨some "R1", some 2, some "bob", none⟩ "t4"])
      (Event.joinMic "s1" ⟨some "R1", some 2, some "alice", none⟩ "t5")).1 "R1").map
      Room.mic_slots = some [("2", "bob")] := by
  refine ⟨?_, ?_, ?_⟩ <;> decide
end VoiceChat
